import Mathlib

/-!
Verification development for the `codecrafters-shell-rust` repository.

The repository contains two closely related implementations of the same
shell: a self-contained `src/main.rs` (its own tokenizer `parse_input`,
builtins, redirection opener `get_output_redirection` and the pipeline
executor inside `main`), and a modular variant (`src/parser.rs`,
`src/commands.rs`).  Both are embedded here; definitions carry the name of
the function they transcribe, with a `main_` name distinguishing the
`main.rs` variant whenever both files define a function of the same name.

Machine integers are modelled as `Nat`/`Int`; OS calls (file metadata,
opening files, spawning processes, chdir) are modelled as oracle functions
supplied in an environment record, and fallible calls return `Option`.
-/

/- ### Character constants (src/parser.rs lines 1-27) -/

def CHAR_BACKSLASH : Char := '\\'
def CHAR_BACKTICK : Char := Char.ofNat 96
def CHAR_CARRIAGE_RETURN : Char := '\r'
def CHAR_EXCLAMATION_MARK : Char := '!'
def CHAR_DOLLAR_SIGN : Char := '$'
def CHAR_DOUBLE_QUOTE : Char := Char.ofNat 34
def CHAR_GREATER_THAN : Char := '>'
def CHAR_NEWLINE : Char := '\n'
def CHAR_NULL : Char := Char.ofNat 0
def CHAR_PIPE : Char := '|'
def CHAR_SINGLE_QUOTE : Char := Char.ofNat 39
def CHAR_TAB : Char := '\t'
def STDERR_FILE_DESCRIPTOR : Char := '2'
def STDOUT_FILE_DESCRIPTOR : Char := '1'
def STDOUT_STDERR_FILE_DESCRIPTOR : Char := '&'

/-- Rust `char::is_whitespace` (Unicode `White_Space` property). -/
def rust_is_whitespace (c : Char) : Bool :=
  c = ' ' || c = '\t' || c = '\n' || c = '\r' ||
  c = Char.ofNat 0x0b || c = Char.ofNat 0x0c ||
  c = Char.ofNat 0x85 || c = Char.ofNat 0xa0 || c = Char.ofNat 0x1680 ||
  (0x2000 ≤ c.toNat && c.toNat ≤ 0x200a) ||
  c = Char.ofNat 0x2028 || c = Char.ofNat 0x2029 ||
  c = Char.ofNat 0x202f || c = Char.ofNat 0x205f || c = Char.ofNat 0x3000

/-- Rust `str::trim`: drop Unicode whitespace from both ends. -/
def rust_trim (cs : List Char) : List Char :=
  ((cs.dropWhile rust_is_whitespace).reverse.dropWhile rust_is_whitespace).reverse

/- ### Data model (src/parser.rs lines 29-40 and src/main.rs lines 47-58) -/

/-- `OutputRedirection` struct: optional target file and append flag. -/
structure OutputRedirection where
  file_name : Option String
  append_to : Bool
deriving DecidableEq

/-- `ParsedCommand` struct: optional token vector plus the two redirections. -/
structure ParsedCommand where
  tokens : Option (List String)
  stdout : OutputRedirection
  stderr : OutputRedirection
deriving DecidableEq

/- ### Tokenizer (src/parser.rs `parse_input`, lines 71-274) -/

/-- The per-stage mutable state of `parse_input`'s inner `while` loop. -/
structure ParseState where
  tokens : List String
  stdout : OutputRedirection
  stderr : OutputRedirection
  current_token : String
  in_single_quotes : Bool
  in_double_quotes : Bool
  escape_next_char : Bool
  in_stdout_redirection : Bool
  in_stderr_redirection : Bool
deriving DecidableEq

/-- State at the top of each iteration of the outer labelled loop. -/
def init_state : ParseState :=
  { tokens := []
    stdout := { file_name := none, append_to := false }
    stderr := { file_name := none, append_to := false }
    current_token := ""
    in_single_quotes := false
    in_double_quotes := false
    escape_next_char := false
    in_stdout_redirection := false
    in_stderr_redirection := false }

/-- The `ParsedCommand` pushed on the pipeline: `tokens` becomes `None` when
the vector is empty (parser.rs lines 147-155 and 256-264). -/
def mk_stage (tokens : List String) (stdout stderr : OutputRedirection) : ParsedCommand :=
  { tokens := if tokens.isEmpty then none else some tokens, stdout, stderr }

/-- End-of-input flush of a pending token or redirection target
(parser.rs lines 246-254). -/
def flush_token (st : ParseState) : ParseState :=
  if st.current_token = "" then st
  else if st.in_stdout_redirection then
    { st with stdout := { st.stdout with file_name := some st.current_token } }
  else if st.in_stderr_redirection then
    { st with stderr := { st.stderr with file_name := some st.current_token } }
  else { st with tokens := st.tokens ++ [st.current_token] }

/-- Stage pushed at end of input: flush, then `mk_stage`. -/
def finish (st : ParseState) : ParsedCommand :=
  mk_stage (flush_token st).tokens (flush_token st).stdout (flush_token st).stderr

/-- Stage pushed on an unquoted `|`: no flush of `current_token`
(parser.rs lines 146-157). -/
def pipe_stage (st : ParseState) : ParsedCommand :=
  mk_stage st.tokens st.stdout st.stderr

/-- Result of one character step: continue with a new state, continue after
also consuming the peeked character, or push the stage and restart. -/
inductive StepAct where
  | push (st : ParseState)
  | pushSkip (st : ParseState)
  | pipeStage
deriving DecidableEq

/-- One iteration of the `while let Some(character)` loop of parser.rs
(lines 93-244), with the match arms transcribed in order.  `peek` is
`characters.peek()`. -/
def parse_step (c : Char) (peek : Option Char) (st : ParseState) : StepAct :=
  if c = CHAR_SINGLE_QUOTE ∧ st.escape_next_char = false then
    if st.current_token = "" then
      .push { st with in_single_quotes := true, in_double_quotes := false }
    else
      match peek with
      | some next_character =>
        if st.in_single_quotes ∧ rust_is_whitespace next_character then
          .push { st with tokens := st.tokens ++ [st.current_token], current_token := "",
                          in_single_quotes := false, in_double_quotes := false }
        else if st.in_double_quotes then
          .push { st with current_token := st.current_token.push c }
        else .push st
      | none => .push st
  else if c = CHAR_DOUBLE_QUOTE ∧ st.escape_next_char = false then
    if st.current_token = "" then
      .push { st with in_single_quotes := false, in_double_quotes := true }
    else
      match peek with
      | some next_character =>
        if st.in_double_quotes ∧ rust_is_whitespace next_character then
          .push { st with tokens := st.tokens ++ [st.current_token], current_token := "",
                          in_single_quotes := false, in_double_quotes := false }
        else if st.in_single_quotes then
          .push { st with current_token := st.current_token.push c }
        else .push st
      | none => .push st
  else if c = CHAR_BACKSLASH ∧ st.escape_next_char = false then
    if st.in_single_quotes then
      .push { st with current_token := st.current_token.push c }
    else if st.in_double_quotes then
      match peek with
      | some next_character =>
        if next_character = CHAR_BACKTICK ∨ next_character = CHAR_BACKSLASH ∨
           next_character = CHAR_DOLLAR_SIGN ∨ next_character = CHAR_DOUBLE_QUOTE ∨
           next_character = CHAR_EXCLAMATION_MARK then
          .push { st with escape_next_char := true }
        else .push { st with current_token := st.current_token.push c }
      | none => .push st
    else .push { st with escape_next_char := true }
  else if c = CHAR_PIPE ∧ st.escape_next_char = false ∧
          st.in_single_quotes = false ∧ st.in_double_quotes = false then
    .pipeStage
  else if c = STDOUT_FILE_DESCRIPTOR ∧ st.current_token = "" then
    match peek with
    | some next_character =>
      if next_character = CHAR_GREATER_THAN then
        .pushSkip { st with in_stdout_redirection := true }
      else .push { st with current_token := st.current_token.push c }
    | none => .push { st with current_token := st.current_token.push c }
  else if c = STDERR_FILE_DESCRIPTOR ∧ st.current_token = "" then
    match peek with
    | some next_character =>
      if next_character = CHAR_GREATER_THAN then
        .pushSkip { st with in_stderr_redirection := true }
      else .push { st with current_token := st.current_token.push c }
    | none => .push { st with current_token := st.current_token.push c }
  else if c = STDOUT_STDERR_FILE_DESCRIPTOR ∧ st.current_token = "" then
    match peek with
    | some next_character =>
      if next_character = CHAR_GREATER_THAN then
        .pushSkip { st with in_stdout_redirection := true, in_stderr_redirection := true }
      else .push { st with current_token := st.current_token.push c }
    | none => .push { st with current_token := st.current_token.push c }
  else if c = CHAR_GREATER_THAN ∧ st.in_stdout_redirection = false ∧
          st.in_stderr_redirection = false ∧ st.escape_next_char = false ∧
          st.in_single_quotes = false ∧ st.in_double_quotes = false then
    .push { st with in_stdout_redirection := true }
  else if c = CHAR_GREATER_THAN then
    .push { st with stdout := { st.stdout with append_to := st.in_stdout_redirection },
                    stderr := { st.stderr with append_to := st.in_stderr_redirection } }
  else if rust_is_whitespace c ∧ st.escape_next_char = false then
    if st.in_single_quotes ∨ st.in_double_quotes then
      .push { st with current_token := st.current_token.push c }
    else if st.current_token ≠ "" then
      if st.in_stdout_redirection then
        .push { st with stdout := { st.stdout with file_name := some st.current_token },
                        in_stdout_redirection := false, current_token := "" }
      else if st.in_stderr_redirection then
        .push { st with stderr := { st.stderr with file_name := some st.current_token },
                        in_stderr_redirection := false, current_token := "" }
      else
        .push { st with tokens := st.tokens ++ [st.current_token], current_token := "" }
    else .push st
  else
    .push { st with current_token := st.current_token.push c, escape_next_char := false }

/-- The two nested loops of `parse_input` (parser.rs lines 75-267), driven by
the character list.  `pushSkip` consumes the peeked `>` as well (the code's
extra `characters.next()`); the `[]` sub-branch there is unreachable because
`pushSkip` is only produced when the peek was `some '>'`. -/
def parse_loop : List Char → ParseState → List ParsedCommand → List ParsedCommand
  | [], st, acc => acc ++ [finish st]
  | c :: rest, st, acc =>
    match parse_step c rest.head? st with
    | .push st' => parse_loop rest st' acc
    | .pipeStage => parse_loop rest init_state (acc ++ [pipe_stage st])
    | .pushSkip st' =>
      match rest with
      | [] => acc ++ [finish st']
      | _ :: rest2 => parse_loop rest2 st' acc

/-- `parse_input` (parser.rs lines 71-274 / main.rs lines 452-653): trim,
run the state machine, return `none` when the pipeline vector is empty. -/
def parse_input (input : String) : Option (List ParsedCommand) :=
  let pipeline := parse_loop (rust_trim input.toList) init_state []
  if pipeline.isEmpty then none else some pipeline

/- ### Escape expansion (src/parser.rs lines 42-69 / src/main.rs lines 675-702) -/

/-- Replacement for a backslash-escaped character in `expand_escape_sequences`. -/
def escape_replacement (next : Char) : List Char :=
  if next = 'n' then [CHAR_NEWLINE]
  else if next = 't' then [CHAR_TAB]
  else if next = 'r' then [CHAR_CARRIAGE_RETURN]
  else if next = CHAR_BACKSLASH then [CHAR_BACKSLASH]
  else if next = '0' then [CHAR_NULL]
  else if next = CHAR_DOUBLE_QUOTE then [CHAR_DOUBLE_QUOTE]
  else if next = CHAR_SINGLE_QUOTE then [CHAR_SINGLE_QUOTE]
  else [CHAR_BACKSLASH, next]

/-- Character-list worker for `expand_escape_sequences`. -/
def expand_escape_chars : List Char → List Char
  | [] => []
  | c :: rest =>
    if c = CHAR_BACKSLASH then
      match rest with
      | [] => []
      | next :: rest2 => escape_replacement next ++ expand_escape_chars rest2
    else c :: expand_escape_chars rest

/-- `expand_escape_sequences` on strings. -/
def expand_escape_sequences (string : String) : String :=
  ⟨expand_escape_chars string.toList⟩

/- ### Builtin `echo` (src/main.rs `command_echo`, lines 293-315) -/

/-- The text `command_echo` writes to its stdout sink.  The argument list is
the enumerated iterator after `argv[0]` was consumed, so indices start at 1. -/
def command_echo_output (arguments : List (Nat × String)) : String :=
  let step : Bool × String → Nat × String → Bool × String :=
    fun acc arg =>
      let expand_escape := acc.1
      let out := acc.2
      let index := arg.1
      let argument := arg.2
      if index = 1 ∧ argument = "-e" then (true, out)
      else
        let out := if ¬(expand_escape ∧ index = 2) ∧ index > 1 then out ++ " " else out
        let out := out ++ (if expand_escape then expand_escape_sequences argument else argument)
        (expand_escape, out)
  (arguments.foldl step (false, "")).2 ++ "\n"

/- ### Builtin `exit` (src/commands.rs lines 106-117 and src/main.rs lines 281-291) -/

/-- Rust `str::parse::<i32>`: optional sign, at least one digit, nothing
else, and the value must fit in a 32-bit signed integer. -/
def parse_i32 (s : String) : Option Int :=
  let cs := s.toList
  let signAndDigits : Int × List Char :=
    match cs with
    | '+' :: rest => (1, rest)
    | '-' :: rest => (-1, rest)
    | _ => (1, cs)
  let sign := signAndDigits.1
  let digits := signAndDigits.2
  if digits.isEmpty then none
  else if digits.all (fun c => c.isDigit) then
    let n : Nat := digits.foldl (fun a c => a * 10 + (c.toNat - 48)) 0
    let v : Int := sign * n
    if -2147483648 ≤ v ∧ v ≤ 2147483647 then some v else none
  else none

/-- Exit code computed by `command_exit` in src/commands.rs (lines 106-117):
`arguments.next()` parsed with `unwrap_or(0)`, default 0. -/
def command_exit_code (arguments : List String) : Int :=
  match arguments.head? with
  | some code => (parse_i32 code).getD 0
  | none => 0

/-- Exit code computed by `command_exit` in src/main.rs (lines 281-291):
`exit_status` starts at 0 and `for ... take(1)` re-assigns it with
`unwrap_or(1)`, so a non-numeric argument yields 1. -/
def main_command_exit_code (arguments : List String) : Int :=
  match arguments.head? with
  | some code => (parse_i32 code).getD 1
  | none => 0

/- ### Builtin `cd` (src/commands.rs `command_cd`, lines 221-246) -/

/-- Oracle environment for `cd`: the HOME variable and whether
`set_current_dir` succeeds on a given path. -/
structure CdEnv where
  home : Option String
  chdir_ok : String → Bool

/-- Directory `command_cd` passes to `set_current_dir`: the first argument,
with `~` (or a missing argument) replaced by `var("HOME").unwrap_or_default()`. -/
def cd_target (env : CdEnv) (arguments : List String) : String :=
  match arguments.head? with
  | some dir => if dir = "~" then env.home.getD "" else dir
  | none => env.home.getD ""

/-- `command_cd`: returns the working directory after the call together with
the lines written to the error sink.  On success the process working
directory is the directory given to `set_current_dir`; on failure it is
unchanged and the documented message is written. -/
def command_cd (env : CdEnv) (arguments : List String) (cwd : String) :
    String × List String :=
  let directory := cd_target env arguments
  if env.chdir_ok directory then (directory, [])
  else (cwd, ["cd: " ++ directory ++ ": No such file or directory\n"])

/- ### Executable resolution (src/commands.rs lines 15-30, src/main.rs lines 339-356) -/

/-- Filesystem/environment oracle shared by the resolver and the executor. -/
structure ExecEnv where
  path_var : Option String
  is_file : String → Bool
  file_mode : String → Option Nat
  open_ok : String → Bool
  spawn_ok : String → Bool
  captured_stdout : String → String
  captured_stderr : String → String

/-- Rust `"a:b".split(':')` on character lists (note `""` yields `[""]`). -/
def split_char (sep : Char) : List Char → List (List Char)
  | [] => [[]]
  | c :: rest =>
    if c = sep then [] :: split_char sep rest
    else
      match split_char sep rest with
      | [] => [[c]]
      | t :: ts => (c :: t) :: ts

/-- Rust `str::split` with a character separator, on strings. -/
def rust_split (sep : Char) (s : String) : List String :=
  (split_char sep s.toList).map (fun l => ⟨l⟩)

/-- Rust `Path::is_absolute` on Unix: the path starts with `/`. -/
def path_is_absolute (s : String) : Bool :=
  match s.toList with
  | '/' :: _ => true
  | _ => false

/-- Rust `Path::new(dir).join(file)`: an absolute `file` replaces `dir`,
otherwise the two are joined with a `/` separator. -/
def rust_join (dir file : String) : String :=
  if path_is_absolute file then file
  else if dir = "" then file
  else
    match dir.toList.getLast? with
    | some '/' => dir ++ file
    | _ => dir ++ "/" ++ file

/-- `is_executable` (src/commands.rs lines 15-18), as `io::Result<bool>`:
`Ok(path.is_file() && (path.metadata()?.permissions().mode() & 0o111 != 0))`;
the metadata call only happens when `is_file()` is true. -/
def is_executable (env : ExecEnv) (full_path_to_executable : String) : Option Bool :=
  if env.is_file full_path_to_executable then
    (env.file_mode full_path_to_executable).map (fun mode => decide (mode &&& 0o111 ≠ 0))
  else some false

/-- The `for path_dir in path_var.split(...)` loop of `search_executable`
(src/commands.rs lines 22-27). -/
def search_dirs (env : ExecEnv) (command : String) : List String → Option String
  | [] => none
  | path_dir :: rest =>
    let full_path := rust_join path_dir command
    if (is_executable env full_path).getD false then some full_path
    else search_dirs env command rest

/-- `search_executable` (src/commands.rs lines 20-30): nothing when the PATH
variable is unset, else the first executable hit in listed order. -/
def search_executable (env : ExecEnv) (command : String) : Option String :=
  match env.path_var with
  | some path_var => search_dirs env command (rust_split ':' path_var)
  | none => none

/-- `is_executable` (src/main.rs lines 339-343): only the mode check; the
caller performs the `is_file` test separately. -/
def main_is_executable (env : ExecEnv) (full_path_to_executable : String) : Option Bool :=
  (env.file_mode full_path_to_executable).map (fun mode => decide (mode &&& 0o111 ≠ 0))

/-- The directory loop of `search_executable` in src/main.rs (lines 347-354):
`full.is_file() && is_executable(&full).unwrap_or(false)`. -/
def main_search_dirs (env : ExecEnv) (command : String) : List String → Option String
  | [] => none
  | path_dir :: rest =>
    let full_path_to_executable := rust_join path_dir command
    if env.is_file full_path_to_executable &&
       ((main_is_executable env full_path_to_executable).getD false) then
      some full_path_to_executable
    else main_search_dirs env command rest

/-- `search_executable` (src/main.rs lines 345-356): `var("PATH")` defaults
to the empty string (whose split is `[""]`). -/
def main_search_executable (env : ExecEnv) (command : String) : Option String :=
  main_search_dirs env command (rust_split ':' (env.path_var.getD ""))

/- ### Redirection open semantics (src/commands.rs `get_redirection` lines
32-52 vs src/main.rs `get_output_redirection` lines 655-673) -/

/-- An opened writable file: its content, the write position, and whether
the descriptor is in append mode (every write goes to the end). -/
structure FileSink where
  content : List Char
  pos : Nat
  append : Bool
deriving DecidableEq

/-- File state produced by `get_redirection` (src/commands.rs lines 34-41):
`create(true).write(true)` plus `append(true)` when appending, else
`truncate(true)`.  `prior` is the file's content before the open (`none`
when the file did not exist). -/
def get_redirection_open (prior : Option (List Char)) (append_to : Bool) : FileSink :=
  if append_to then
    { content := prior.getD [], pos := (prior.getD []).length, append := true }
  else { content := [], pos := 0, append := false }

/-- File state produced by `get_output_redirection` (src/main.rs lines
658-662): `append(append_to).write(true).create(true)` — never truncated,
writes start at position 0 when not appending. -/
def get_output_redirection_open (prior : Option (List Char)) (append_to : Bool) : FileSink :=
  if append_to then
    { content := prior.getD [], pos := (prior.getD []).length, append := true }
  else { content := prior.getD [], pos := 0, append := false }

/-- POSIX write on an open file: append mode writes at the end, otherwise
the data overwrites the content starting at the current position. -/
def fileSink_write (f : FileSink) (data : List Char) : FileSink :=
  if f.append then
    { f with content := f.content ++ data, pos := f.content.length + data.length }
  else
    { f with content := f.content.take f.pos ++ data ++ f.content.drop (f.pos + data.length),
             pos := f.pos + data.length }

/- ### Pipeline executor (src/main.rs lines 166-275 and 358-415) -/

/-- A writable sink as seen by the executor: an opened redirection file, or
the shell's own inherited stdout/stderr (`unwrap_or(Box::new(io::stdout()))`
/ `io::stderr()`). -/
inductive Sink where
  | file (name : String) (append : Bool)
  | inheritOut
  | inheritErr
deriving DecidableEq

/-- How a spawned child's stdin is wired. -/
inductive StdinCfg where
  | null
  | pipeFromPrev
deriving DecidableEq

/-- How a spawned child's stdout is wired: `Stdio::piped()`,
`Stdio::inherit()`, or captured by `.output()` and copied to a sink. -/
inductive StdoutCfg where
  | piped
  | inherited
  | captured
deriving DecidableEq

/-- Observable events of one pipeline execution, in program order. -/
inductive Event where
  | opened (file : String) (append : Bool)
  | openFailed (file : String)
  | wrote (s : Sink) (data : String)
  | builtinInvoked (name : String) (stdout stderr : Sink)
  | spawned (index : Nat) (command : String) (stdin : StdinCfg) (stdout : StdoutCfg)
  | waitedPrev
  | errorReported (s : Sink)
deriving DecidableEq

/-- How the execution of one parsed pipeline ends. -/
inductive Outcome where
  | completed
  | abandoned
  | panicked
  | exited (code : Int)
deriving DecidableEq

/-- `get_output_redirection` (src/main.rs lines 655-673) together with its
observable effects: a successful open (with `create(true)`) creates/opens
the target file; a failed open prints `Error: {e}` on the shell's stderr and
yields `None`. -/
def get_output_redirection (env : ExecEnv) (output : OutputRedirection) :
    Option Sink × List Event :=
  match output.file_name with
  | some file_name =>
    if env.open_ok file_name then
      (some (.file file_name output.append_to), [.opened file_name output.append_to])
    else (none, [.openFailed file_name])
  | none => (none, [])

/-- Events of `if let Some(mut previous_child) = child { previous_child.wait() }`. -/
def wait_events (previous_child : Bool) : List Event :=
  if previous_child then [.waitedPrev] else []

/-- Events of copying one captured stream to a sink when it is non-empty. -/
def capture_events (sink : Sink) (data : String) : List Event :=
  if data ≠ "" then [.wrote sink data] else []

/-- `run_executable` (src/main.rs lines 358-415).  `index` only tags the
`spawned` event; the source function does not receive it.  Absolute command
names skip the PATH search; when both streams are inherited the child is
spawned with inherited stdio and waited on, otherwise `.output()` captures
both streams and the non-empty ones are copied to the sinks.  A spawn
failure propagates as `Err`, which the caller reports on the stage's stderr
sink (`writeln!(stderr, "Error: {:?}", e)`), modelled as `errorReported`. -/
def run_executable (env : ExecEnv) (index : Nat) (command : String)
    (stdin : StdinCfg) (stdoutSink stderrSink : Sink)
    (inherit_stdout inherit_stderr : Bool) (previous_child : Bool) : List Event :=
  let command_path :=
    if path_is_absolute command then some command else main_search_executable env command
  match command_path with
  | some _ =>
    if inherit_stdout && inherit_stderr then
      if env.spawn_ok command then
        [.spawned index command stdin .inherited] ++ wait_events previous_child
      else [.errorReported stderrSink]
    else
      if env.spawn_ok command then
        [.spawned index command stdin .captured] ++ wait_events previous_child ++
        capture_events stdoutSink (env.captured_stdout command) ++
        capture_events stderrSink (env.captured_stderr command)
      else
        wait_events previous_child ++ [.errorReported stderrSink]
  | none => [.wrote stderrSink (command ++ ": command not found\n")]

/-- Message `writeln!`-ed when a first or middle pipeline stage fails to
spawn (src/main.rs lines 225-230 and 248-253). -/
def spawn_failure_message (command : String) : String :=
  "Error: Failed to spawn child process " ++ command ++ "\n"

/-- The `for (index, parsed_command) in ...enumerate()` loop of `main`
(src/main.rs lines 171-272).  `n` is `pipeline_length`; the two booleans
model `previous_output.is_some()` and `previous_child.is_some()`.
A stage whose `tokens` is `None` executes `continue 'repl`, abandoning the
rest of the pipeline; `arguments.next().unwrap()` on an empty token vector
and `previous_output.take().unwrap()` on `None` panic, aborting the shell. -/
def exec_stages (env : ExecEnv) (n : Nat) :
    List (Nat × ParsedCommand) → Bool → Bool → List Event → List Event × Outcome
  | [], _, _, tr => (tr, .completed)
  | (index, parsed_command) :: rest, previous_output, previous_child, tr =>
    let inherit_stdout := parsed_command.stdout.file_name.isNone
    let inherit_stderr := parsed_command.stderr.file_name.isNone
    match parsed_command.tokens with
    | none => (tr, .abandoned)
    | some tokens =>
      let ro := get_output_redirection env parsed_command.stdout
      let re := get_output_redirection env parsed_command.stderr
      let stdoutSink := ro.1.getD .inheritOut
      let stderrSink := re.1.getD .inheritErr
      let tr := tr ++ ro.2 ++ re.2
      match tokens with
      | [] => (tr, .panicked)
      | command :: args =>
        if command = "cd" then
          exec_stages env n rest previous_output previous_child
            (tr ++ [.builtinInvoked "cd" stdoutSink stderrSink])
        else if command = "echo" then
          exec_stages env n rest previous_output previous_child
            (tr ++ [.wrote stdoutSink (command_echo_output (List.enumFrom 1 args))])
        else if command = "exit" then
          (tr, .exited (main_command_exit_code args))
        else if command = "pwd" then
          exec_stages env n rest previous_output previous_child
            (tr ++ [.builtinInvoked "pwd" stdoutSink stderrSink])
        else if command = "type" then
          exec_stages env n rest previous_output previous_child
            (tr ++ [.builtinInvoked "type" stdoutSink stderrSink])
        else
          if n = 1 then
            exec_stages env n rest previous_output previous_child
              (tr ++ run_executable env index command .null stdoutSink stderrSink
                inherit_stdout inherit_stderr false)
          else if index = 0 then
            if env.spawn_ok command then
              exec_stages env n rest true true
                (tr ++ [.spawned index command .null .piped])
            else
              exec_stages env n rest previous_output previous_child
                (tr ++ [.wrote stderrSink (spawn_failure_message command)])
          else if index < n - 1 then
            if previous_output then
              if env.spawn_ok command then
                exec_stages env n rest true true
                  (tr ++ [.spawned index command .pipeFromPrev .piped] ++
                    wait_events previous_child)
              else
                exec_stages env n rest false previous_child
                  (tr ++ [.wrote stderrSink (spawn_failure_message command)])
            else (tr, .panicked)
          else
            if previous_output then
              exec_stages env n rest false false
                (tr ++ run_executable env index command .pipeFromPrev stdoutSink stderrSink
                  inherit_stdout inherit_stderr previous_child)
            else (tr, .panicked)

/-- Execution of one parsed pipeline by `main` (src/main.rs lines 166-275). -/
def exec_pipeline (env : ExecEnv) (parsed_commands : List ParsedCommand) :
    List Event × Outcome :=
  exec_stages env parsed_commands.length (List.enum parsed_commands) false false []

/- ### Concrete oracle environments used by the per-claim evaluations -/

/-- Everything succeeds; `/bin` holds `cmd2`. -/
def envC1 : ExecEnv :=
  { path_var := some "/bin"
    is_file := fun p => p = "/bin/cmd2"
    file_mode := fun p => if p = "/bin/cmd2" then some 0o755 else none
    open_ok := fun _ => true
    spawn_ok := fun _ => true
    captured_stdout := fun _ => ""
    captured_stderr := fun _ => "" }

/-- `nosuchcmd` cannot be spawned; `/bin` holds `wc`. -/
def envC3 : ExecEnv :=
  { path_var := some "/bin"
    is_file := fun p => p = "/bin/wc"
    file_mode := fun p => if p = "/bin/wc" then some 0o755 else none
    open_ok := fun _ => true
    spawn_ok := fun c => c ≠ "nosuchcmd"
    captured_stdout := fun _ => ""
    captured_stderr := fun _ => "" }

/-- Opening `denied.txt` fails; everything else succeeds. -/
def envC4 : ExecEnv :=
  { path_var := some "/bin"
    is_file := fun _ => false
    file_mode := fun _ => none
    open_ok := fun f => f ≠ "denied.txt"
    spawn_ok := fun _ => true
    captured_stdout := fun _ => ""
    captured_stderr := fun _ => "" }

/-- Both `/a` and `/b` on the PATH contain an executable `foo`. -/
def envC9 : ExecEnv :=
  { path_var := some "/a:/b"
    is_file := fun p => p = "/a/foo" || p = "/b/foo"
    file_mode := fun p => if p = "/a/foo" || p = "/b/foo" then some 0o755 else none
    open_ok := fun _ => true
    spawn_ok := fun _ => true
    captured_stdout := fun _ => ""
    captured_stderr := fun _ => "" }

/- ## Theorems -/

/- ### Generic facts about the tokenizer state machine -/

theorem dropWhile_eq_nil_of_all {p : Char → Bool} :
    ∀ cs : List Char, cs.all p = true → cs.dropWhile p = [] := by
  intro cs h
  induction cs with
  | nil => rfl
  | cons c rest ih =>
    simp only [List.all_cons, Bool.and_eq_true] at h
    simp [List.dropWhile, h.1, ih h.2]

theorem rust_trim_eq_nil (cs : List Char) (h : cs.all rust_is_whitespace = true) :
    rust_trim cs = [] := by
  unfold rust_trim
  rw [dropWhile_eq_nil_of_all cs h]
  rfl

/-- Both stage-push sites of `parse_input` go through `mk_stage`, whose
`tokens` field is `None` exactly when the vector is empty. -/
theorem mk_stage_tokens (ts : List String) (o e : OutputRedirection) :
    (mk_stage ts o e).tokens = none ∨
    ∃ l, (mk_stage ts o e).tokens = some l ∧ l ≠ [] := by
  cases ts with
  | nil => left; rfl
  | cons a l => right; exact ⟨a :: l, rfl, by simp⟩

/-- Every element of a `parse_loop` result is either carried over from the
accumulator or produced by `mk_stage`. -/
theorem parse_loop_stages (cs : List Char) (st : ParseState) (acc : List ParsedCommand) :
    ∀ pc ∈ parse_loop cs st acc, pc ∈ acc ∨ ∃ ts o e, pc = mk_stage ts o e := by
  induction cs, st, acc using parse_loop.induct with
  | case1 st acc =>
    intro pc hpc
    simp only [parse_loop] at hpc
    rcases List.mem_append.mp hpc with h | h
    · exact Or.inl h
    · exact Or.inr ⟨_, _, _, List.mem_singleton.mp h⟩
  | case2 c rest st acc st' hstep ih =>
    intro pc hpc
    simp only [parse_loop, hstep] at hpc
    exact ih pc hpc
  | case3 c rest st acc hstep ih =>
    intro pc hpc
    simp only [parse_loop, hstep] at hpc
    rcases ih pc hpc with h | h
    · rcases List.mem_append.mp h with h' | h'
      · exact Or.inl h'
      · exact Or.inr ⟨_, _, _, List.mem_singleton.mp h'⟩
    · exact Or.inr h
  | case4 c st acc st' hstep =>
    intro pc hpc
    simp only [parse_loop, hstep] at hpc
    rcases List.mem_append.mp hpc with h | h
    · exact Or.inl h
    · exact Or.inr ⟨_, _, _, List.mem_singleton.mp h⟩
  | case5 c st acc st' head rest2 hstep ih =>
    intro pc hpc
    simp only [parse_loop, hstep] at hpc
    exact ih pc hpc

/-- `parse_loop` strictly grows the pipeline accumulator. -/
theorem parse_loop_length (cs : List Char) (st : ParseState) (acc : List ParsedCommand) :
    acc.length < (parse_loop cs st acc).length := by
  induction cs, st, acc using parse_loop.induct with
  | case1 st acc => simp [parse_loop]
  | case2 c rest st acc st' hstep ih => simpa only [parse_loop, hstep] using ih
  | case3 c rest st acc hstep ih =>
    simp only [parse_loop, hstep]
    calc acc.length < (acc ++ [pipe_stage st]).length := by simp
      _ < _ := ih
  | case4 c st acc st' hstep =>
    simp [parse_loop, show parse_step c none st = StepAct.pushSkip st' from hstep]
  | case5 c st acc st' head rest2 hstep ih => simpa only [parse_loop, hstep] using ih

/- ### Claim C2 -/

/-- C2 counterexample: the claim says a line consisting only of whitespace
makes `parse_input` return nothing, but `parse_input " "` returns a
one-stage pipeline (with `tokens = None`), not `None`. -/
theorem c2_whitespace_returns_some_counterexample : parse_input " " ≠ none := by decide

/-- C2 (amended): `parse_input` never returns `None` — every input yields a
non-empty pipeline; a line that is empty after trimming yields exactly one
stage whose `tokens` is `None` (stages with zero arguments carry
`tokens = None` and are discarded by the caller, not by the tokenizer). -/
theorem c2_parse_always_nonempty (input : String) :
    (∃ pipeline, parse_input input = some pipeline ∧ pipeline ≠ []) ∧
    (input.toList.all rust_is_whitespace = true →
      parse_input input =
        some [{ tokens := none,
                stdout := { file_name := none, append_to := false },
                stderr := { file_name := none, append_to := false } }]) := by
  constructor
  · cases hh : parse_loop (rust_trim input.toList) init_state [] with
    | nil =>
      exfalso
      have h := parse_loop_length (rust_trim input.toList) init_state []
      rw [hh] at h
      simp at h
    | cons a l =>
      refine ⟨a :: l, ?_, by simp⟩
      show (if (parse_loop (rust_trim input.toList) init_state []).isEmpty then none
            else some (parse_loop (rust_trim input.toList) init_state [])) = some (a :: l)
      rw [hh]
      rfl
  · intro hws
    show (if (parse_loop (rust_trim input.toList) init_state []).isEmpty then none
          else some (parse_loop (rust_trim input.toList) init_state [])) =
        some [{ tokens := none,
                stdout := { file_name := none, append_to := false },
                stderr := { file_name := none, append_to := false } }]
    rw [rust_trim_eq_nil input.toList hws]
    decide

/-- C2 witness. -/
theorem c2_parse_always_nonempty_witness :
    parse_input " " =
      some [{ tokens := none,
              stdout := { file_name := none, append_to := false },
              stderr := { file_name := none, append_to := false } }] :=
  (c2_parse_always_nonempty " ").2 (by decide)

/- ### Claim C10 -/

/-- C10: every `ParsedCommand` produced by `parse_input` has `tokens` equal
to `None` or to `Some` of a non-empty vector, so taking `argv[0]` out of a
`Some` value always succeeds. -/
theorem c10_tokens_none_or_nonempty (input : String) (pc : ParsedCommand)
    (hmem : pc ∈ (parse_input input).getD []) :
    pc.tokens = none ∨ ∃ ts, pc.tokens = some ts ∧ ts ≠ [] := by
  cases hh : parse_loop (rust_trim input.toList) init_state [] with
  | nil =>
    exfalso
    have h := parse_loop_length (rust_trim input.toList) init_state []
    rw [hh] at h
    simp at h
  | cons a l =>
    have hget : (parse_input input).getD [] = a :: l := by
      show (if (parse_loop (rust_trim input.toList) init_state []).isEmpty then none
            else some (parse_loop (rust_trim input.toList) init_state [])).getD [] = a :: l
      rw [hh]
      rfl
    rw [hget] at hmem
    have hmem' : pc ∈ parse_loop (rust_trim input.toList) init_state [] := by
      rw [hh]; exact hmem
    rcases parse_loop_stages _ _ _ pc hmem' with h | ⟨ts, o, e, rfl⟩
    · exact absurd h (List.not_mem_nil pc)
    · exact mk_stage_tokens ts o e

/-- C10 witness. -/
theorem c10_tokens_none_or_nonempty_witness :
    ({ tokens := some ["echo", "hi"],
       stdout := { file_name := none, append_to := false },
       stderr := { file_name := none, append_to := false } } : ParsedCommand).tokens = none ∨
    ∃ ts, ({ tokens := some ["echo", "hi"],
             stdout := { file_name := none, append_to := false },
             stderr := { file_name := none, append_to := false } } : ParsedCommand).tokens =
            some ts ∧ ts ≠ [] :=
  c10_tokens_none_or_nonempty "echo hi" _ (by decide)

/- ### Claim C5 -/

/-- C5 counterexample: the claim says opening the sink truncates when
`append` is false, for every `RedirectionSpec`; but `get_output_redirection`
(src/main.rs) opens without `truncate`, so with prior content `xxxxx` the
sequence `echo hi > f` then `echo bye >> f` leaves `hi\nxxbye\n`, not
`hi\nbye\n`. -/
theorem c5_no_truncate_counterexample :
    (fileSink_write
      (get_output_redirection_open
        (some (fileSink_write (get_output_redirection_open (some "xxxxx".toList) false)
          "hi\n".toList).content) true)
      "bye\n".toList).content = "hi\nxxbye\n".toList ∧
    (fileSink_write
      (get_output_redirection_open
        (some (fileSink_write (get_output_redirection_open (some "xxxxx".toList) false)
          "hi\n".toList).content) true)
      "bye\n".toList).content ≠ "hi\nbye\n".toList := by decide

/-- C5 (amended): `get_redirection` (src/commands.rs) truncates when
`append` is false and positions at the end when it is true, so the
`echo hi > f` / `echo bye >> f` sequence leaves exactly `hi\nbye\n` whatever
the prior contents; `get_output_redirection` (src/main.rs) opens without
truncation, so prior contents longer than the bytes written survive past
them. -/
theorem c5_get_redirection_append_semantics (prior : Option (List Char)) :
    get_redirection_open prior false = { content := [], pos := 0, append := false } ∧
    (get_redirection_open prior true).content = prior.getD [] ∧
    (get_redirection_open prior true).append = true ∧
    (fileSink_write
      (get_redirection_open
        (some (fileSink_write (get_redirection_open prior false) "hi\n".toList).content) true)
      "bye\n".toList).content = "hi\nbye\n".toList :=
  ⟨rfl, rfl, rfl, rfl⟩

/-- C5 witness. -/
theorem c5_get_redirection_append_semantics_witness :
    get_redirection_open (some "zzzz".toList) false =
      { content := [], pos := 0, append := false } ∧
    (get_redirection_open (some "zzzz".toList) true).content = "zzzz".toList ∧
    (get_redirection_open (some "zzzz".toList) true).append = true ∧
    (fileSink_write
      (get_redirection_open
        (some (fileSink_write (get_redirection_open (some "zzzz".toList) false)
          "hi\n".toList).content) true)
      "bye\n".toList).content = "hi\nbye\n".toList :=
  c5_get_redirection_append_semantics (some "zzzz".toList)

/- ### Claim C7 -/

/-- C7 counterexample: the claim says a non-numeric argument makes the shell
exit with code 0, but `command_exit` in src/main.rs uses `unwrap_or(1)`, so
`exit abc` exits with code 1. -/
theorem c7_nonnumeric_exit_code_counterexample :
    main_command_exit_code ["abc"] = 1 ∧ main_command_exit_code ["abc"] ≠ 0 := by decide

/-- C7 (amended): `exit` terminates the whole shell process with the parsed
numeric code; with no argument both implementations exit with 0; with a
non-numeric argument `command_exit` in src/commands.rs exits with 0 while
`command_exit` in src/main.rs exits with 1. -/
theorem c7_exit_code (code : String) (rest : List String) (n : Int)
    (hnum : parse_i32 code = some n) :
    command_exit_code (code :: rest) = n ∧
    main_command_exit_code (code :: rest) = n ∧
    command_exit_code [] = 0 ∧
    main_command_exit_code [] = 0 ∧
    (∀ bad, parse_i32 bad = none →
      command_exit_code (bad :: rest) = 0 ∧ main_command_exit_code (bad :: rest) = 1) := by
  refine ⟨?_, ?_, rfl, rfl, ?_⟩
  · simp [command_exit_code, hnum]
  · simp [main_command_exit_code, hnum]
  · intro bad hbad
    constructor
    · simp [command_exit_code, hbad]
    · simp [main_command_exit_code, hbad]

/-- C7 witness. -/
theorem c7_exit_code_witness :
    command_exit_code ["3"] = 3 ∧
    main_command_exit_code ["3"] = 3 ∧
    command_exit_code [] = 0 ∧
    main_command_exit_code [] = 0 ∧
    (∀ bad, parse_i32 bad = none →
      command_exit_code [bad] = 0 ∧ main_command_exit_code [bad] = 1) :=
  c7_exit_code "3" [] 3 (by decide)

/- ### Claim C8 -/

/-- C8: when `set_current_dir` fails, `cd` leaves the working directory
unchanged and writes exactly `cd: <dir>: No such file or directory` plus a
newline to the error sink; on success the working directory becomes the
directory handed to `set_current_dir`; `~` or a missing argument resolve to
the HOME environment value (empty when unset). -/
theorem c8_cd_failure_and_resolution (env : CdEnv) (arguments : List String) (cwd : String) :
    (env.chdir_ok (cd_target env arguments) = false →
      command_cd env arguments cwd =
        (cwd, ["cd: " ++ cd_target env arguments ++ ": No such file or directory\n"])) ∧
    (env.chdir_ok (cd_target env arguments) = true →
      command_cd env arguments cwd = (cd_target env arguments, [])) ∧
    (∀ extra, cd_target env ("~" :: extra) = env.home.getD "") ∧
    cd_target env [] = env.home.getD "" := by
  refine ⟨?_, ?_, fun extra => rfl, rfl⟩ <;>
    · intro h
      simp [command_cd, h]

/-- C8 witness. -/
theorem c8_cd_failure_and_resolution_witness :
    command_cd { home := some "/home/user", chdir_ok := fun _ => false } ["/nope"] "/work" =
      ("/work", ["cd: /nope: No such file or directory\n"]) :=
  (c8_cd_failure_and_resolution
    { home := some "/home/user", chdir_ok := fun _ => false } ["/nope"] "/work").1 rfl

/- ### Claim C9 -/

/-- The property `search_executable` tests for a PATH entry: the joined path
names a regular file whose mode has at least one of the `0o111` bits. -/
def path_entry_executable (env : ExecEnv) (command dir : String) : Prop :=
  env.is_file (rust_join dir command) = true ∧
  ∃ mode, env.file_mode (rust_join dir command) = some mode ∧ mode &&& 0o111 ≠ 0

theorem is_executable_getD_iff (env : ExecEnv) (command dir : String) :
    ((is_executable env (rust_join dir command)).getD false = true) ↔
      path_entry_executable env command dir := by
  unfold is_executable path_entry_executable
  by_cases hf : env.is_file (rust_join dir command) = true
  · simp only [hf, if_true]
    cases hm : env.file_mode (rust_join dir command) with
    | none => simp
    | some mode => simp
  · simp only [hf]
    simp [Bool.not_eq_true] at hf
    simp [hf]

theorem search_dirs_some_iff (env : ExecEnv) (command : String) :
    ∀ (dirs : List String) (full_path : String),
      search_dirs env command dirs = some full_path ↔
      ∃ pre dir post, dirs = pre ++ dir :: post ∧
        full_path = rust_join dir command ∧
        path_entry_executable env command dir ∧
        ∀ d ∈ pre, ¬ path_entry_executable env command d := by
  intro dirs
  induction dirs with
  | nil =>
    intro full_path
    constructor
    · intro h
      exact absurd h (by simp [search_dirs])
    · rintro ⟨pre, dir, post, hsplit, -⟩
      exact absurd hsplit (by simp)
  | cons d ds ih =>
    intro full_path
    by_cases hd : (is_executable env (rust_join d command)).getD false = true
    · have hstep : search_dirs env command (d :: ds) = some (rust_join d command) := by
        rw [search_dirs]
        exact if_pos hd
      rw [hstep]
      constructor
      · intro h
        refine ⟨[], d, ds, rfl, (Option.some_injective _ h).symm,
          (is_executable_getD_iff env command d).mp hd, by simp⟩
      · rintro ⟨pre, dir, post, hsplit, hp, hexec, hpre⟩
        cases pre with
        | nil =>
          simp only [List.nil_append, List.cons.injEq] at hsplit
          rw [hp, ← hsplit.1]
        | cons q pre' =>
          simp only [List.cons_append, List.cons.injEq] at hsplit
          exact absurd ((is_executable_getD_iff env command d).mp hd)
            (hsplit.1 ▸ hpre q (List.mem_cons_self q pre'))
    · have hstep : search_dirs env command (d :: ds) = search_dirs env command ds := by
        rw [search_dirs]
        exact if_neg hd
      rw [hstep]
      have hnd : ¬ path_entry_executable env command d :=
        fun hc => hd ((is_executable_getD_iff env command d).mpr hc)
      rw [ih full_path]
      constructor
      · rintro ⟨pre, dir, post, hsplit, hp, hexec, hpre⟩
        refine ⟨d :: pre, dir, post, by rw [hsplit]; rfl, hp, hexec, ?_⟩
        intro x hx
        rcases List.mem_cons.mp hx with rfl | hx'
        · exact hnd
        · exact hpre x hx'
      · rintro ⟨pre, dir, post, hsplit, hp, hexec, hpre⟩
        cases pre with
        | nil =>
          simp only [List.nil_append, List.cons.injEq] at hsplit
          exact absurd (hsplit.1 ▸ hexec) hnd
        | cons q pre' =>
          simp only [List.cons_append, List.cons.injEq] at hsplit
          exact ⟨pre', dir, post, hsplit.2, hp, hexec,
            fun x hx => hpre x (List.mem_cons_of_mem q hx)⟩

theorem search_dirs_none_iff (env : ExecEnv) (command : String) :
    ∀ dirs : List String,
      search_dirs env command dirs = none ↔
      ∀ d ∈ dirs, ¬ path_entry_executable env command d := by
  intro dirs
  induction dirs with
  | nil => simp [search_dirs]
  | cons d ds ih =>
    by_cases hd : (is_executable env (rust_join d command)).getD false = true
    · have hstep : search_dirs env command (d :: ds) = some (rust_join d command) := by
        rw [search_dirs]
        exact if_pos hd
      rw [hstep]
      constructor
      · intro h
        exact absurd h (by simp)
      · intro h
        exact absurd ((is_executable_getD_iff env command d).mp hd)
          (h d (List.mem_cons_self d ds))
    · have hstep : search_dirs env command (d :: ds) = search_dirs env command ds := by
        rw [search_dirs]
        exact if_neg hd
      rw [hstep]
      rw [ih]
      have hnd : ¬ path_entry_executable env command d :=
        fun hc => hd ((is_executable_getD_iff env command d).mpr hc)
      constructor
      · intro h x hx
        rcases List.mem_cons.mp hx with rfl | hx'
        · exact hnd
        · exact h x hx'
      · intro h x hx
        exact h x (List.mem_cons_of_mem d hx)

/-- C9: for a command searched on the PATH, `search_executable` scans the
listed directories in order and returns the joined path in the
earliest-listed directory holding a regular file of that name with at least
one execute bit; when no directory holds one, it returns nothing. -/
theorem c9_search_executable_earliest (env : ExecEnv) (command path_var : String)
    (hpath : env.path_var = some path_var) :
    (∀ full_path, search_executable env command = some full_path ↔
      ∃ pre dir post, rust_split ':' path_var = pre ++ dir :: post ∧
        full_path = rust_join dir command ∧
        path_entry_executable env command dir ∧
        ∀ d ∈ pre, ¬ path_entry_executable env command d) ∧
    (search_executable env command = none ↔
      ∀ d ∈ rust_split ':' path_var, ¬ path_entry_executable env command d) := by
  unfold search_executable
  rw [hpath]
  exact ⟨fun full_path => search_dirs_some_iff env command _ full_path,
    search_dirs_none_iff env command _⟩

/-- C9 witness: with `PATH=/a:/b` and an executable `foo` in both `/a` and
`/b`, resolution returns `/a/foo`, and the characterization produces the
earliest-directory decomposition. -/
theorem c9_search_executable_earliest_witness :
    ∃ pre dir post, rust_split ':' "/a:/b" = pre ++ dir :: post ∧
      "/a/foo" = rust_join dir "foo" ∧
      path_entry_executable envC9 "foo" dir ∧
      ∀ d ∈ pre, ¬ path_entry_executable envC9 "foo" d :=
  ((c9_search_executable_earliest envC9 "foo" "/a:/b" rfl).1 "/a/foo").mp (by decide)

/- ### Claim C6 -/

/-- C6 counterexample: the claim says a stage with empty argv is skipped and
the remaining stages still execute; but for `| echo hi` the first stage's
`tokens = None` triggers `continue 'repl`, so execution stops with no
events at all — the `echo hi` stage never runs. -/
theorem c6_remaining_stage_not_run_counterexample :
    exec_pipeline envC1 ((parse_input "| echo hi").getD []) = ([], .abandoned) := by decide

/-- C6 (amended): when the executor reaches a stage whose `tokens` is
`None`, it abandons the whole remaining pipeline (the `continue 'repl` at
src/main.rs line 176) without reporting an error: the trace stops exactly
at that point and no later stage executes.  Stages before it have already
run. -/
theorem c6_empty_stage_abandons_pipeline (env : ExecEnv) (n index : Nat)
    (stdout stderr : OutputRedirection) (rest : List (Nat × ParsedCommand))
    (previous_output previous_child : Bool) (tr : List Event) :
    exec_stages env n ((index, { tokens := none, stdout, stderr }) :: rest)
      previous_output previous_child tr = (tr, .abandoned) := rfl

/-- C6 witness. -/
theorem c6_empty_stage_abandons_pipeline_witness :
    exec_stages envC1 2
      [(0, { tokens := none,
             stdout := { file_name := none, append_to := false },
             stderr := { file_name := none, append_to := false } }),
       (1, { tokens := some ["echo", "hi"],
             stdout := { file_name := none, append_to := false },
             stderr := { file_name := none, append_to := false } })]
      false false [] = ([], .abandoned) :=
  c6_empty_stage_abandons_pipeline envC1 2 0
    { file_name := none, append_to := false } { file_name := none, append_to := false }
    [(1, { tokens := some ["echo", "hi"],
           stdout := { file_name := none, append_to := false },
           stderr := { file_name := none, append_to := false } })]
    false false []

/- ### Claim C3 -/

/-- C3: the claim says no error during execution terminates the shell and
that after a spawn failure in a non-final stage execution continues.  The
failure is indeed reported to the stage's stderr, but the next stage then
evaluates `previous_output.take().unwrap()` on `None` (src/main.rs line
260) and panics, aborting the whole shell process: for `nosuchcmd | wc`
with `nosuchcmd` unspawnable the execution ends in a panic. -/
theorem c3_spawn_failure_panics :
    exec_pipeline envC3 ((parse_input "nosuchcmd | wc").getD []) =
      ([.wrote .inheritErr "Error: Failed to spawn child process nosuchcmd\n"],
        .panicked) := by decide

/- ### Claim C4 -/

/-- C4 counterexample: the claim says the stream degrades to a no-op
discarding sink whose output is dropped; but with the open of `denied.txt`
failing, `echo hi > denied.txt` still writes `hi\n` — to the shell's
inherited stdout (`unwrap_or(Box::new(io::stdout()))`), not to a discarding
sink. -/
theorem c4_output_not_dropped_counterexample :
    exec_pipeline envC4 ((parse_input "echo hi > denied.txt").getD []) =
      ([.openFailed "denied.txt", .wrote .inheritOut "hi\n"], .completed) := by decide

/-- C4 (amended): when a redirection target fails to open, the failure is
reported on the shell's error stream and `get_output_redirection` yields
`None`, so the executor falls back to the inherited stdout/stderr stream for
that sink; the owning command still runs (its output goes to the inherited
stream rather than being dropped) and the failure is never fatal. -/
theorem c4_open_failure_falls_back_inherited (env : ExecEnv)
    (output : OutputRedirection) (file_name : String)
    (h1 : output.file_name = some file_name)
    (h2 : env.open_ok file_name = false) :
    get_output_redirection env output = (none, [.openFailed file_name]) ∧
    (get_output_redirection env output).1.getD Sink.inheritOut = Sink.inheritOut ∧
    (get_output_redirection env output).1.getD Sink.inheritErr = Sink.inheritErr := by
  unfold get_output_redirection
  rw [h1]
  simp [h2]

/-- C4 witness. -/
theorem c4_open_failure_falls_back_inherited_witness :
    get_output_redirection envC4 { file_name := some "denied.txt", append_to := false } =
      (none, [.openFailed "denied.txt"]) ∧
    (get_output_redirection envC4
      { file_name := some "denied.txt", append_to := false }).1.getD Sink.inheritOut =
      Sink.inheritOut ∧
    (get_output_redirection envC4
      { file_name := some "denied.txt", append_to := false }).1.getD Sink.inheritErr =
      Sink.inheritErr :=
  c4_open_failure_falls_back_inherited envC4
    { file_name := some "denied.txt", append_to := false } "denied.txt" rfl rfl

/- ### Claim C1 -/

/-- Every `spawned` event for a non-final stage index carries a piped
stdout. -/
def nonfinal_spawns_piped (n : Nat) (tr : List Event) : Prop :=
  ∀ index command stdin stdout_cfg,
    Event.spawned index command stdin stdout_cfg ∈ tr → index < n - 1 →
    stdout_cfg = StdoutCfg.piped

theorem nonfinal_append (n : Nat) (tr new : List Event)
    (h : nonfinal_spawns_piped n tr) (hnew : nonfinal_spawns_piped n new) :
    nonfinal_spawns_piped n (tr ++ new) := by
  intro i c si so hmem hi
  rcases List.mem_append.mp hmem with hm | hm
  · exact h i c si so hm hi
  · exact hnew i c si so hm hi

theorem nonfinal_of_spawn_free (n : Nat) (l : List Event)
    (hfree : ∀ i c si so, Event.spawned i c si so ∉ l) :
    nonfinal_spawns_piped n l :=
  fun i c si so hmem _ => absurd hmem (hfree i c si so)

theorem spawn_free_wait_events (b : Bool) :
    ∀ i c si so, Event.spawned i c si so ∉ wait_events b := by
  intro i c si so
  cases b <;> simp [wait_events]

theorem spawn_free_capture_events (s : Sink) (data : String) :
    ∀ i c si so, Event.spawned i c si so ∉ capture_events s data := by
  intro i c si so
  unfold capture_events
  split <;> simp

theorem spawn_free_get_output_redirection (env : ExecEnv) (o : OutputRedirection) :
    ∀ i c si so, Event.spawned i c si so ∉ (get_output_redirection env o).2 := by
  intro i c si so
  cases hf : o.file_name with
  | none => simp [get_output_redirection, hf]
  | some f =>
    simp only [get_output_redirection, hf]
    split <;> simp

theorem spawn_free_wrote (s : Sink) (data : String) :
    ∀ i c si so, Event.spawned i c si so ∉ [Event.wrote s data] := by
  intro i c si so
  simp

theorem spawn_free_builtin (name : String) (s1 s2 : Sink) :
    ∀ i c si so, Event.spawned i c si so ∉ [Event.builtinInvoked name s1 s2] := by
  intro i c si so
  simp

theorem spawn_free_error_reported (s : Sink) :
    ∀ i c si so, Event.spawned i c si so ∉ [Event.errorReported s] := by
  intro i c si so
  simp

/-- The only stage index a `spawned` event of `run_executable` can carry is
the one it was given. -/
theorem run_executable_spawn_index (env : ExecEnv) (idx : Nat) (command : String)
    (stdin : StdinCfg) (so se : Sink) (a b pch : Bool) (i : Nat) (c : String)
    (si : StdinCfg) (cfg : StdoutCfg)
    (hmem : Event.spawned i c si cfg ∈
      run_executable env idx command stdin so se a b pch) :
    i = idx := by
  simp only [run_executable] at hmem
  rcases hcp : (if path_is_absolute command then some command
      else main_search_executable env command) with _ | p
  · simp only [hcp] at hmem
    simp at hmem
  · simp only [hcp] at hmem
    by_cases hio : (a && b) = true
    · rw [if_pos hio] at hmem
      by_cases hsp : env.spawn_ok command = true
      · rw [if_pos hsp] at hmem
        rcases List.mem_append.mp hmem with hm | hm
        · have heq := List.mem_singleton.mp hm
          injection heq with h1 h2 h3 h4
        · exact absurd hm (spawn_free_wait_events pch i c si cfg)
      · rw [if_neg hsp] at hmem
        exact absurd hmem (spawn_free_error_reported se i c si cfg)
    · rw [if_neg hio] at hmem
      by_cases hsp : env.spawn_ok command = true
      · rw [if_pos hsp] at hmem
        rcases List.mem_append.mp hmem with hm | hm
        · rcases List.mem_append.mp hm with hm2 | hm2
          · rcases List.mem_append.mp hm2 with hm3 | hm3
            · have heq := List.mem_singleton.mp hm3
              injection heq with h1 h2 h3 h4
            · exact absurd hm3 (spawn_free_wait_events pch i c si cfg)
          · exact absurd hm2 (spawn_free_capture_events so _ i c si cfg)
        · exact absurd hm (spawn_free_capture_events se _ i c si cfg)
      · rw [if_neg hsp] at hmem
        rcases List.mem_append.mp hmem with hm | hm
        · exact absurd hm (spawn_free_wait_events pch i c si cfg)
        · exact absurd hm (spawn_free_error_reported se i c si cfg)

theorem nonfinal_run_executable (n : Nat) (env : ExecEnv) (idx : Nat)
    (command : String) (stdin : StdinCfg) (so se : Sink) (a b pch : Bool)
    (hidx : ¬ idx < n - 1) :
    nonfinal_spawns_piped n (run_executable env idx command stdin so se a b pch) := by
  intro i c si cfg hmem hi
  rw [run_executable_spawn_index env idx command stdin so se a b pch i c si cfg hmem] at hi
  exact absurd hi hidx

theorem nonfinal_one (n : Nat) (hn : n = 1) (l : List Event) :
    nonfinal_spawns_piped n l := by
  intro i c si cfg _ hi
  rw [hn] at hi
  exact absurd hi (by omega)

theorem nonfinal_spawned_piped (n idx : Nat) (cmd : String) (si : StdinCfg) :
    nonfinal_spawns_piped n [Event.spawned idx cmd si StdoutCfg.piped] := by
  intro i c si' cfg hmem _
  have heq := List.mem_singleton.mp hmem
  injection heq with h1 h2 h3 h4

/-- Core invariant of the executor: a `spawned` event recorded for a stage
index strictly below `n - 1` always has a piped stdout. -/
theorem exec_stages_nonfinal (env : ExecEnv) (n : Nat) :
    ∀ (entries : List (Nat × ParsedCommand)) (p1 p2 : Bool) (tr : List Event),
      nonfinal_spawns_piped n tr →
      nonfinal_spawns_piped n (exec_stages env n entries p1 p2 tr).1 := by
  intro entries
  induction entries with
  | nil =>
    intro p1 p2 tr h
    exact h
  | cons e rest ih =>
    obtain ⟨index, pc⟩ := e
    intro p1 p2 tr h
    cases hpt : pc.tokens with
    | none =>
      simp only [exec_stages, hpt]
      exact h
    | some tokens =>
      have hgor1 := nonfinal_of_spawn_free n _
        (spawn_free_get_output_redirection env pc.stdout)
      have hgor2 := nonfinal_of_spawn_free n _
        (spawn_free_get_output_redirection env pc.stderr)
      have htr : nonfinal_spawns_piped n
          (tr ++ (get_output_redirection env pc.stdout).2 ++
            (get_output_redirection env pc.stderr).2) :=
        nonfinal_append n _ _ (nonfinal_append n _ _ h hgor1) hgor2
      cases tokens with
      | nil =>
        simp only [exec_stages, hpt]
        exact htr
      | cons command args =>
        simp only [exec_stages, hpt]
        by_cases hcd : command = "cd"
        · rw [if_pos hcd]
          exact ih _ _ _ (nonfinal_append n _ _ htr
            (nonfinal_of_spawn_free n _ (spawn_free_builtin _ _ _)))
        rw [if_neg hcd]
        by_cases hecho : command = "echo"
        · rw [if_pos hecho]
          exact ih _ _ _ (nonfinal_append n _ _ htr
            (nonfinal_of_spawn_free n _ (spawn_free_wrote _ _)))
        rw [if_neg hecho]
        by_cases hexit : command = "exit"
        · rw [if_pos hexit]
          exact htr
        rw [if_neg hexit]
        by_cases hpwd : command = "pwd"
        · rw [if_pos hpwd]
          exact ih _ _ _ (nonfinal_append n _ _ htr
            (nonfinal_of_spawn_free n _ (spawn_free_builtin _ _ _)))
        rw [if_neg hpwd]
        by_cases htype : command = "type"
        · rw [if_pos htype]
          exact ih _ _ _ (nonfinal_append n _ _ htr
            (nonfinal_of_spawn_free n _ (spawn_free_builtin _ _ _)))
        rw [if_neg htype]
        by_cases hn : n = 1
        · rw [if_pos hn]
          exact ih _ _ _ (nonfinal_append n _ _ htr (nonfinal_one n hn _))
        rw [if_neg hn]
        by_cases hidx0 : index = 0
        · rw [if_pos hidx0]
          by_cases hsp : env.spawn_ok command = true
          · rw [if_pos hsp]
            exact ih _ _ _ (nonfinal_append n _ _ htr
              (nonfinal_spawned_piped n index command StdinCfg.null))
          · rw [if_neg hsp]
            exact ih _ _ _ (nonfinal_append n _ _ htr
              (nonfinal_of_spawn_free n _ (spawn_free_wrote _ _)))
        rw [if_neg hidx0]
        by_cases hmid : index < n - 1
        · rw [if_pos hmid]
          by_cases hp1 : p1 = true
          · rw [if_pos hp1]
            by_cases hsp : env.spawn_ok command = true
            · rw [if_pos hsp]
              exact ih _ _ _ (nonfinal_append n _ _
                (nonfinal_append n _ _ htr
                  (nonfinal_spawned_piped n index command StdinCfg.pipeFromPrev))
                (nonfinal_of_spawn_free n _ (spawn_free_wait_events p2)))
            · rw [if_neg hsp]
              exact ih _ _ _ (nonfinal_append n _ _ htr
                (nonfinal_of_spawn_free n _ (spawn_free_wrote _ _)))
          · rw [if_neg hp1]
            exact htr
        · rw [if_neg hmid]
          by_cases hp1 : p1 = true
          · rw [if_pos hp1]
            exact ih _ _ _ (nonfinal_append n _ _ htr
              (nonfinal_run_executable n env index command StdinCfg.pipeFromPrev _ _ _ _ _ hmid))
          · rw [if_neg hp1]
            exact htr

/-- C1 counterexample: the claim says the file of a mid-pipeline stdout
redirection is not created; but for `cmd1 > f.txt | cmd2` the executor
calls `get_output_redirection` on every stage before dispatch, so `f.txt`
is opened with `create(true)` — it is created. -/
theorem c1_redirect_target_created_counterexample :
    Event.opened "f.txt" false ∈
      (exec_pipeline envC1 ((parse_input "cmd1 > f.txt | cmd2").getD [])).1 := by decide

/-- C1 (amended): in every pipeline, every child process spawned for a
non-final stage has its stdout wired to the pipe to the next stage
(`Stdio::piped()`), regardless of that stage's parsed stdout redirection;
the parsed target file is nevertheless opened (created) when the stage is
dispatched, and builtin stages (which spawn no process) write to their
resolved redirection sink even mid-pipeline. -/
theorem c1_nonfinal_spawn_stdout_piped (env : ExecEnv)
    (parsed_commands : List ParsedCommand) (index : Nat) (command : String)
    (stdin : StdinCfg) (stdout_cfg : StdoutCfg)
    (hmem : Event.spawned index command stdin stdout_cfg ∈
      (exec_pipeline env parsed_commands).1)
    (hidx : index < parsed_commands.length - 1) :
    stdout_cfg = StdoutCfg.piped :=
  exec_stages_nonfinal env parsed_commands.length (List.enum parsed_commands)
    false false []
    (nonfinal_of_spawn_free _ _ (fun _ _ _ _ => List.not_mem_nil _))
    index command stdin stdout_cfg hmem hidx

/-- C1 witness. -/
theorem c1_nonfinal_spawn_stdout_piped_witness :
    (Event.spawned 0 "cmd1" StdinCfg.null StdoutCfg.piped ∈
      (exec_pipeline envC1 ((parse_input "cmd1 > f.txt | cmd2").getD [])).1 ∧
     0 < ((parse_input "cmd1 > f.txt | cmd2").getD []).length - 1) ∧
    StdoutCfg.piped = StdoutCfg.piped :=
  ⟨⟨by decide, by decide⟩,
    c1_nonfinal_spawn_stdout_piped envC1 ((parse_input "cmd1 > f.txt | cmd2").getD [])
      0 "cmd1" StdinCfg.null StdoutCfg.piped (by decide) (by decide)⟩
